import Mathlib

/-!
Shallow embedding of the SearchBar component of
src/src/components/Search/SearchBar/index.tsx and of the AnsiiRow row
renderer that its test file (the second part of that source file)
exercises.

The SearchBar is a React component.  Its observable behaviour is the
sequence of calls it makes to the externally supplied callbacks
(onChange, onSubmit) and to the breadcrumb sink, as the user issues
discrete events (editing the pattern, pressing Enter, clicking the
submit button, changing the mode in the select, pressing Ctrl+S).  We
embed it as an explicit state machine: a state record, an event type,
and a step function returning the next state together with the list of
emitted calls.  The only asynchrony in the component is the trailing
debounce timer created by `debounce(..., 1000)` and memoised by
`useMemo(..., [selected, onChange])`; we model timers explicitly with
their deadline and the values their closure captured.
-/

namespace Parsley

/-- The `SearchBarActions` enumeration (imported from constants/enums in the
source). Modelled from the spec: the enum declaration itself is not among the
given files; per the spec its members in declaration order are
Search, Filter, Highlight. -/
inductive SearchBarActions where
  | Search
  | Filter
  | Highlight
deriving DecidableEq

/-- `Object.values(SearchBarActions)`: the enumeration members in declaration
order, as the Ctrl+S handler (source lines 56-64) enumerates them. -/
def searchBarActionValues : List SearchBarActions :=
  [SearchBarActions.Search, SearchBarActions.Filter, SearchBarActions.Highlight]

/-- The Ctrl+S handler's mode computation (source lines 56-64):
`keyIndex = (values.indexOf(selected) + 1) % values.length` and then the
member at `keyIndex`. -/
def nextAction (selected : SearchBarActions) : SearchBarActions :=
  let keyIndex :=
    (searchBarActionValues.indexOf selected + 1) % searchBarActionValues.length
  searchBarActionValues.getD keyIndex SearchBarActions.Search

/-- A pending trailing-debounce timer. Modelled from the spec: utils/debounce
is not among the given files; per the spec it is a standard trailing-edge
debounce ("delay invocation until no new calls arrive for a fixed window,
then invoke once with the last arguments").  `capturedSelected` is the value
of `selected` captured by the closure `(value) => onChange(selected, value)`
passed to `debounce` (source line 89): the `useMemo` on
`[selected, onChange]` (source lines 88-91) guarantees the live debounced
function's closure always captured the current mode, so we record the
captured mode at scheduling time. -/
structure DebounceTimer where
  deadline : Nat
  capturedSelected : SearchBarActions
  lastValue : String
deriving DecidableEq

/-- The component state: the two `useState` hooks `input` and `selected`
(source lines 34-35), the pending timer of the debounced function currently
returned by `useMemo`, and the still-pending timers of debounced functions
that were abandoned when `useMemo` recomputed on a `selected` change
(recreating the debounced function does not clear the old function's
timeout). -/
structure SearchBarState where
  input : String
  selected : SearchBarActions
  currentTimer : Option DebounceTimer
  staleTimers : List DebounceTimer
deriving DecidableEq

/-- Initial state: `useState("")` and `useState(SearchBarActions.Search)`
(source lines 34-35), no timers. -/
def initialState : SearchBarState :=
  { input := "", selected := SearchBarActions.Search,
    currentTimer := none, staleTimers := [] }

/-- One observable call made by the component: a forwarded `onChange`, a
forwarded `onSubmit`, or a breadcrumb (`search-bar-submit` at source line 76,
`search-bar-select` at source line 102), each tagged with the time at which
it happens and the arguments it carries. -/
inductive Output where
  | onChange (time : Nat) (selected : SearchBarActions) (value : String)
  | onSubmit (time : Nat) (selected : SearchBarActions) (value : String)
  | breadcrumbSubmit (time : Nat) (selected : SearchBarActions) (input : String)
  | breadcrumbSelect (time : Nat) (value : SearchBarActions)
deriving DecidableEq

/-- Recognises a forwarded `onSubmit` call. -/
def isOnSubmit : Output → Bool
  | Output.onSubmit _ _ _ => true
  | _ => false

/-- The component's props that influence the embedded behaviour: the
`validator` predicate (default `() => true`) and the `disabled` flag
(source lines 17-32). -/
structure Config where
  validator : String → Bool
  disabled : Bool

/-- `handleOnSubmit` (source lines 69-78): blurs the input (no observable
effect in the model), clears `input` when the mode is Filter or Highlight,
emits the `search-bar-submit` breadcrumb with the current `selected` and
`input`, and calls `onSubmit(selected, input)`.  `setInput("")` does not
change the render-closure variable `input`, so the breadcrumb and the
callback both carry the pre-clear value. -/
def handleOnSubmit (time : Nat) (s : SearchBarState) :
    SearchBarState × List Output :=
  let cleared :=
    if s.selected = SearchBarActions.Filter ∨ s.selected = SearchBarActions.Highlight
    then "" else s.input
  ({ s with input := cleared },
   [Output.breadcrumbSubmit time s.selected s.input,
    Output.onSubmit time s.selected s.input])

/-- The effect of `setSelected(value)` together with the re-render it causes:
when the value actually changes, `useMemo` on `[selected, onChange]`
(source lines 88-91) recreates the debounced function — the abandoned
function's pending timeout is NOT cleared and moves to `staleTimers` — and
the `useEffect` on `[isSearch]` (source lines 80-85) runs iff `isSearch`
changed, calling `handleOnSubmit` when the new mode is Search and the input
is non-empty.  When the value is unchanged React bails out: no dependency
changed, so neither the memo nor the effect re-runs. -/
def applySetSelected (time : Nat) (value : SearchBarActions)
    (s : SearchBarState) : SearchBarState × List Output :=
  if value = s.selected then (s, [])
  else if value = SearchBarActions.Search ∧ 0 < s.input.length then
    handleOnSubmit time
      { s with selected := value, currentTimer := none,
               staleTimers := s.staleTimers ++ s.currentTimer.toList }
  else
    ({ s with selected := value, currentTimer := none,
              staleTimers := s.staleTimers ++ s.currentTimer.toList }, [])

/-- `handleOnChange` (source lines 93-98): always updates `input`; when
`validator(value)` holds, calls the debounced function, which (trailing
debounce) stores the new arguments and resets its deadline to
`time + 1000`.  The closure of the current debounced function captured the
current `selected`. -/
def handleOnChange (cfg : Config) (time : Nat) (value : String)
    (s : SearchBarState) : SearchBarState :=
  let s1 := { s with input := value }
  if cfg.validator value then
    { s1 with
        currentTimer :=
          some ({ deadline := time + 1000, capturedSelected := s1.selected,
                  lastValue := value } : DebounceTimer) }
  else s1

/-- A user-visible event delivered to the component, tagged with its time in
milliseconds. -/
inductive Event where
  | changePattern (time : Nat) (value : String)
  | pressEnter (time : Nat)
  | clickSubmit (time : Nat)
  | changeSelect (time : Nat) (value : SearchBarActions)
  | ctrlS (time : Nat)

/-- The time at which an event is delivered. -/
def Event.time : Event → Nat
  | Event.changePattern t _ => t
  | Event.pressEnter t => t
  | Event.clickSubmit t => t
  | Event.changeSelect t _ => t
  | Event.ctrlS t => t

/-- A due timer fires `onChange(selected, value)` with the closure-captured
mode and the last stored arguments, at its deadline. -/
def fireTimer (tm : DebounceTimer) : Output :=
  Output.onChange tm.deadline tm.capturedSelected tm.lastValue

/-- Fire every pending timer whose deadline has been reached by `now`:
stale timers first (they were scheduled earlier), then the current one. -/
def fireDue (now : Nat) (s : SearchBarState) : SearchBarState × List Output :=
  let dueStale := s.staleTimers.filter (fun tm => decide (tm.deadline ≤ now))
  let keptStale := s.staleTimers.filter (fun tm => decide (now < tm.deadline))
  match s.currentTimer with
  | some c =>
    if c.deadline ≤ now then
      ({ s with currentTimer := none, staleTimers := keptStale },
       dueStale.map fireTimer ++ [fireTimer c])
    else
      ({ s with staleTimers := keptStale }, dueStale.map fireTimer)
  | none => ({ s with staleTimers := keptStale }, dueStale.map fireTimer)

/-- The component's reaction to one event (the event handlers of the source,
with the render consequences folded in):
* `changePattern` — the input's onChange handler (source line 164) calls
  `handleOnChange`;
* `pressEnter` — the input's onKeyPress handler (source lines 165-167):
  `e.key === "Enter" && isValid && handleOnSubmit()`;
* `clickSubmit` — the submit IconButton (source lines 146-153) exists only
  while `isValid` (otherwise the warning icon replaces it) and carries
  `disabled={disabled || input.length === 0}`, so a click reaches
  `handleOnSubmit` only when the pattern is valid, the bar enabled and the
  input non-empty;
* `changeSelect` — `handleChangeSelect` (source lines 100-103): sets the
  mode and emits the `search-bar-select` breadcrumb;
* `ctrlS` — the Ctrl+S shortcut (source lines 53-67), registered with
  `{disabled, ignoreFocus: true}`: when the bar is enabled it selects the
  next enumeration member. -/
def handleEvent (cfg : Config) (e : Event) (s : SearchBarState) :
    SearchBarState × List Output :=
  match e with
  | Event.changePattern time value => (handleOnChange cfg time value s, [])
  | Event.pressEnter time =>
      if cfg.validator s.input then handleOnSubmit time s else (s, [])
  | Event.clickSubmit time =>
      if cfg.validator s.input ∧ cfg.disabled = false ∧ 0 < s.input.length then
        handleOnSubmit time s
      else (s, [])
  | Event.changeSelect time value =>
      let p := applySetSelected time value s
      (p.fst, Output.breadcrumbSelect time value :: p.snd)
  | Event.ctrlS time =>
      if cfg.disabled then (s, [])
      else applySetSelected time (nextAction s.selected) s

/-- One step: timers due by the event's time fire first, then the event is
handled. -/
def step (cfg : Config) (e : Event) (s : SearchBarState) :
    SearchBarState × List Output :=
  let fired := fireDue e.time s
  let handled := handleEvent cfg e fired.fst
  (handled.fst, fired.snd ++ handled.snd)

/-- Run a sequence of events from a state, then let time advance to
`endTime`, firing whatever timers become due. -/
def runFrom (cfg : Config) : SearchBarState → List Event → Nat →
    SearchBarState × List Output
  | s, [], endTime => fireDue endTime s
  | s, e :: rest, endTime =>
      let p := step cfg e s
      let q := runFrom cfg p.fst rest endTime
      (q.fst, p.snd ++ q.snd)

/-- Run a sequence of events from the initial state. -/
def run (cfg : Config) (events : List Event) (endTime : Nat) :
    SearchBarState × List Output :=
  runFrom cfg initialState events endTime

/-- The event list of a sequence of `changePattern` calls given as
(time, value) pairs. -/
def changeEvents : List (Nat × String) → List Event
  | [] => []
  | (t, v) :: rest => Event.changePattern t v :: changeEvents rest

/-- The calls after one at time `prev` arrive in order and each within
1000ms of its predecessor (so each arrives before the pending debounce
deadline). -/
def rapidFrom (prev : Nat) : List (Nat × String) → Bool
  | [] => true
  | (t, _) :: rest =>
      decide (prev ≤ t) && decide (t < prev + 1000) && rapidFrom t rest

/-- The time of the last of a sequence of calls starting at `t0`. -/
def lastTime (t0 : Nat) : List (Nat × String) → Nat
  | [] => t0
  | (t, _) :: rest => lastTime t rest

/-- The value of the last of a sequence of calls starting with `v0`. -/
def lastValue (v0 : String) : List (Nat × String) → String
  | [] => v0
  | (_, v) :: rest => lastValue v rest

/-!
The AnsiiRow row renderer.  The component itself is not among the given
files — only its test file is (the second part of the source file) — so the
definitions below are modelled from the spec (sections 3 and 4.2) and
checked against the shapes the tests exercise.
-/

/-- Modelled from the spec: `HighlightRange` is an optional
`{ lowerRange: number, upperRange?: number }` with inclusive line-index
bounds; an absent `upperRange` means unbounded above (spec section 3). -/
structure HighlightRange where
  lowerRange : Nat
  upperRange : Option Nat
deriving DecidableEq

/-- `needle` occurs as a contiguous run inside `hay`. -/
def charsContain (needle : List Char) : List Char → Bool
  | [] => needle.isEmpty
  | c :: rest => needle.isPrefixOf (c :: rest) || charsContain needle rest

/-- Modelled from the spec: the SearchTerm is a case-insensitive compiled
pattern (the tests use the literal pattern /highlight me/i); we model it as
a literal string matched case-insensitively, i.e. the lowercased term occurs
in the lowercased line text. -/
def matchesSearchTerm (term line : String) : Bool :=
  charsContain term.toLower.data line.toLower.data

/-- Modelled from the spec: a line index satisfies the active HighlightRange
when no range is supplied, or when it lies within the range's inclusive
bounds (spec section 3 invariants). -/
def inHighlightRange (range : Option HighlightRange) (index : Nat) : Bool :=
  match range with
  | none => true
  | some r =>
      decide (r.lowerRange ≤ index) &&
      (match r.upperRange with
       | none => true
       | some u => decide (index ≤ u))

/-- The props of AnsiiRow that decide row presence and highlighting, as the
test file passes them (`data = { getLine, searchTerm, range, ... }`). -/
structure RowData where
  getLine : Nat → Option String
  searchTerm : Option String
  range : Option HighlightRange

/-- Modelled from the spec: the highlight decoration is applied iff a
SearchTerm is set, the line text matches it, and the line's index falls
within the HighlightRange when one is supplied (spec section 3 invariants,
section 4.2 step 5). -/
def shouldHighlightLine (data : RowData) (index : Nat) (line : String) : Bool :=
  match data.searchTerm with
  | none => false
  | some term => matchesSearchTerm term line && inHighlightRange data.range index

/-- What the row renders of a line: its text content and whether the
highlight decoration is applied. -/
structure RenderedRow where
  content : String
  highlighted : Bool
deriving DecidableEq

/-- Modelled from the spec: the AnsiiRow render for a line index.  If
`getLine(index)` is undefined the row renders nothing — no container
element; if it is defined (the empty string included) a container is
rendered holding the text, with the highlight decoration per
`shouldHighlightLine` (spec section 4.2 steps 1-5). -/
def ansiiRow (data : RowData) (lineNumber : Nat) : Option RenderedRow :=
  match data.getLine lineNumber with
  | none => none
  | some text =>
      some { content := text, highlighted := shouldHighlightLine data lineNumber text }

/-! ## Helper lemmas -/

/-- Firing timers only ever forwards `onChange`; no submit comes out of a
debounce timer. -/
theorem filter_isOnSubmit_map_fireTimer (l : List DebounceTimer) :
    (l.map fireTimer).filter isOnSubmit = [] := by
  induction l with
  | nil => rfl
  | cons h t ih => simp [List.filter_cons, fireTimer, isOnSubmit, ih]

/-- Everything `fireDue` emits is an `onChange`, never an `onSubmit`. -/
theorem fireDue_filter_onSubmit (now : Nat) (s : SearchBarState) :
    (fireDue now s).snd.filter isOnSubmit = [] := by
  apply List.filter_eq_nil_iff.mpr
  intro o ho
  obtain ⟨si, ssel, cur, stale⟩ := s
  have : ∃ tm : DebounceTimer, o = fireTimer tm := by
    cases cur with
    | none =>
        obtain ⟨tm, _, rfl⟩ := List.mem_map.mp ho
        exact ⟨tm, rfl⟩
    | some c =>
        by_cases hd : c.deadline ≤ now
        · simp only [fireDue, hd, if_true, if_pos] at ho
          rcases List.mem_append.mp ho with hm | hm
          · obtain ⟨tm, _, rfl⟩ := List.mem_map.mp hm
            exact ⟨tm, rfl⟩
          · rw [List.mem_singleton.mp hm]
            exact ⟨c, rfl⟩
        · simp only [fireDue, hd, if_false, if_neg, not_false_iff] at ho
          obtain ⟨tm, _, rfl⟩ := List.mem_map.mp ho
          exact ⟨tm, rfl⟩
  obtain ⟨tm, rfl⟩ := this
  simp [fireTimer, isOnSubmit]

/-- Firing due timers does not change the selected mode. -/
theorem fireDue_fst_selected (now : Nat) (s : SearchBarState) :
    (fireDue now s).fst.selected = s.selected := by
  obtain ⟨si, ssel, cur, stale⟩ := s
  cases cur with
  | none => rfl
  | some c => by_cases hd : c.deadline ≤ now <;> simp [fireDue, hd]

/-- Firing due timers does not change the input. -/
theorem fireDue_fst_input (now : Nat) (s : SearchBarState) :
    (fireDue now s).fst.input = s.input := by
  obtain ⟨si, ssel, cur, stale⟩ := s
  cases cur with
  | none => rfl
  | some c => by_cases hd : c.deadline ≤ now <;> simp [fireDue, hd]

/-- Whatever branch `applySetSelected` takes, the selected mode afterwards is
the requested value. -/
theorem applySetSelected_fst_selected (time : Nat) (value : SearchBarActions)
    (s : SearchBarState) :
    (applySetSelected time value s).fst.selected = value := by
  unfold applySetSelected
  by_cases h : value = s.selected
  · simp [h]
  · by_cases h2 : value = SearchBarActions.Search ∧ 0 < s.input.length
    · obtain ⟨hv, hlen⟩ := h2
      subst hv
      simp [h, hlen, handleOnSubmit]
    · simp [h, h2]

/-- The calls `applySetSelected` emits: nothing when the value is unchanged,
and the submit pair exactly when the mode switches to Search with a
non-empty input. -/
theorem applySetSelected_snd (time : Nat) (value : SearchBarActions)
    (s : SearchBarState) :
    (applySetSelected time value s).snd =
      if value = s.selected then []
      else if value = SearchBarActions.Search ∧ 0 < s.input.length then
        [Output.breadcrumbSubmit time value s.input,
         Output.onSubmit time value s.input]
      else [] := by
  unfold applySetSelected
  by_cases h : value = s.selected
  · simp [h]
  · by_cases h2 : value = SearchBarActions.Search ∧ 0 < s.input.length
    · obtain ⟨hv, hlen⟩ := h2
      subst hv
      simp [h, hlen, handleOnSubmit]
    · simp [h, h2]

/-- A real mode change abandons the current debounced function: its pending
timer joins the stale ones and the new function has no pending timer yet. -/
theorem applySetSelected_fst_timers (time : Nat) (value : SearchBarActions)
    (s : SearchBarState) (h : value ≠ s.selected) :
    (applySetSelected time value s).fst.currentTimer = none ∧
    (applySetSelected time value s).fst.staleTimers =
      s.staleTimers ++ s.currentTimer.toList := by
  unfold applySetSelected
  rw [if_neg h]
  by_cases h2 : value = SearchBarActions.Search ∧ 0 < s.input.length <;>
    simp [h2, handleOnSubmit]

/-- With no current timer, `fireDue` emits exactly the due stale timers. -/
theorem fireDue_snd_of_none (now : Nat) (s : SearchBarState)
    (h : s.currentTimer = none) :
    (fireDue now s).snd =
      (s.staleTimers.filter (fun tm => decide (tm.deadline ≤ now))).map fireTimer := by
  obtain ⟨si, ssel, cur, stale⟩ := s
  cases cur with
  | none => rfl
  | some c => simp at h

/-! ## The claims -/

/-- C5: for every submit, the local pattern state is cleared immediately
after submit exactly when the mode is Filter or Highlight; when the mode is
Search the whole state (the pattern included) is retained unchanged
(source lines 73-75). -/
theorem c5_submit_clears_iff_filter_or_highlight (time : Nat) (s : SearchBarState) :
    ((s.selected = SearchBarActions.Filter ∨ s.selected = SearchBarActions.Highlight) →
      (handleOnSubmit time s).fst.input = "") ∧
    (s.selected = SearchBarActions.Search → (handleOnSubmit time s).fst = s) := by
  constructor
  · intro h
    simp [handleOnSubmit, h]
  · intro h
    have hcond : ¬ (s.selected = SearchBarActions.Filter ∨
        s.selected = SearchBarActions.Highlight) := by
      rw [h]
      rintro (hc | hc) <;> exact SearchBarActions.noConfusion hc
    dsimp only [handleOnSubmit]
    rw [if_neg hcond]

/-- C9: the `search-bar-submit` breadcrumb and the `onSubmit` callback both
carry the pattern as it was when submit fired — `setInput("")` does not
change the render-closure variable `input` that lines 76-77 of the source
read — even in the very modes (Filter, Highlight) in which the same submit
clears the displayed pattern. -/
theorem c9_submit_reports_precleared_pattern (time : Nat) (s : SearchBarState) :
    (handleOnSubmit time s).snd =
      [Output.breadcrumbSubmit time s.selected s.input,
       Output.onSubmit time s.selected s.input] ∧
    ((s.selected = SearchBarActions.Filter ∨ s.selected = SearchBarActions.Highlight) →
      (handleOnSubmit time s).fst.input = "" ∧
      (handleOnSubmit time s).snd =
        [Output.breadcrumbSubmit time s.selected s.input,
         Output.onSubmit time s.selected s.input]) := by
  refine ⟨rfl, fun h => ⟨?_, rfl⟩⟩
  simp [handleOnSubmit, h]

/-- C10's fixed configuration: a validator accepting only strings of at most
two characters. -/
def c10Cfg : Config :=
  { validator := fun v => decide (v.length ≤ 2), disabled := false }

/-- C10: a valid edit ("ok" at t=0) schedules a debounced `onChange`; an
invalid edit ("zzz" at t=500) within the window updates the displayed
pattern but does not touch the pending timer (source lines 93-98 guard only
the scheduling, not a cancellation), so `onChange` still fires at t=1000
with the earlier valid value while the displayed pattern is the invalid
string. -/
theorem c10_invalid_edit_does_not_cancel_pending :
    c10Cfg.validator "zzz" = false ∧
    run c10Cfg [Event.changePattern 0 "ok", Event.changePattern 500 "zzz"] 2000 =
      ({ input := "zzz", selected := SearchBarActions.Search,
         currentTimer := none, staleTimers := [] },
       [Output.onChange 1000 SearchBarActions.Search "ok"]) := by
  exact ⟨by decide, by decide⟩

/-- C6: while the bar is enabled, Ctrl+S (registered with
`ignoreFocus: true`, so focus position is irrelevant) replaces the mode by
the next enumeration member in declaration order, Search to Filter to
Highlight and wrapping back to Search; three applications of the step
return any mode to itself. -/
theorem c6_ctrl_s_cycles_modes (validator : String → Bool)
    (s : SearchBarState) (t : Nat) (a : SearchBarActions) :
    (step { validator := validator, disabled := false }
        (Event.ctrlS t) s).fst.selected = nextAction s.selected ∧
    nextAction SearchBarActions.Search = SearchBarActions.Filter ∧
    nextAction SearchBarActions.Filter = SearchBarActions.Highlight ∧
    nextAction SearchBarActions.Highlight = SearchBarActions.Search ∧
    nextAction (nextAction (nextAction a)) = a := by
  refine ⟨?_, by decide, by decide, by decide, by cases a <;> decide⟩
  show (handleEvent _ (Event.ctrlS t) (fireDue t s).fst).fst.selected = _
  rw [show handleEvent { validator := validator, disabled := false }
        (Event.ctrlS t) (fireDue t s).fst =
      applySetSelected t (nextAction (fireDue t s).fst.selected) (fireDue t s).fst
    from rfl]
  rw [applySetSelected_fst_selected, fireDue_fst_selected]

/-- C7: the row is absent (no container element) exactly when `getLine`
returns undefined, and present — with empty content — when `getLine`
returns the empty string: present-but-empty and absent are distinguished. -/
theorem c7_row_presence_distinguishes_absent_and_empty (data : RowData) (i : Nat) :
    ((ansiiRow data i).isSome = (data.getLine i).isSome) ∧
    (data.getLine i = none → ansiiRow data i = none) ∧
    (data.getLine i = some "" →
      ∃ r : RenderedRow, ansiiRow data i = some r ∧ r.content = "") := by
  refine ⟨?_, ?_, ?_⟩
  · cases h : data.getLine i <;> simp [ansiiRow, h]
  · intro h
    simp [ansiiRow, h]
  · intro h
    refine ⟨{ content := "", highlighted := shouldHighlightLine data i "" }, ?_, rfl⟩
    simp [ansiiRow, h]

/-- C8: a rendered line carries the highlight decoration iff a search term
is set, the line text matches it case-insensitively, and the line index
satisfies the highlight range when one is supplied; both range bounds are
inclusive (a line exactly at upperRange is in, one past it is out), and
with no range every matching line qualifies. -/
theorem c8_highlight_iff_term_match_and_range (data : RowData) (i : Nat) :
    (∀ r : RenderedRow, ansiiRow data i = some r →
      (r.highlighted = true ↔
        ∃ term, data.searchTerm = some term ∧
          matchesSearchTerm term r.content = true ∧
          inHighlightRange data.range i = true)) ∧
    (∀ l u : Nat, l ≤ u →
      inHighlightRange (some { lowerRange := l, upperRange := some u }) u = true) ∧
    (∀ l u : Nat,
      inHighlightRange (some { lowerRange := l, upperRange := some u }) (u + 1) = false) ∧
    (∀ j : Nat, inHighlightRange (none : Option HighlightRange) j = true) := by
  refine ⟨?_, ?_, ?_, fun j => rfl⟩
  · intro r hr
    unfold ansiiRow at hr
    cases hg : data.getLine i with
    | none => rw [hg] at hr; exact absurd hr (by simp)
    | some text =>
        rw [hg] at hr
        obtain rfl := (Option.some_inj.mp hr).symm
        show shouldHighlightLine data i text = true ↔ _
        unfold shouldHighlightLine
        cases hst : data.searchTerm with
        | none => simp
        | some term => simp [Bool.and_eq_true]
  · intro l u hlu
    simp [inHighlightRange, hlu]
  · intro l u
    simp [inHighlightRange]

/-- C1's fixed configuration: a validator accepting only the string "good",
bar enabled. -/
def c1Cfg : Config :=
  { validator := fun v => decide (v = "good"), disabled := false }

/-- C1's fixed state: the invalid pattern "bad" with mode Filter and no
pending timers. -/
def c1State : SearchBarState :=
  { input := "bad", selected := SearchBarActions.Filter,
    currentTimer := none, staleTimers := [] }

/-- C1 counterexample: with the invalid pattern "bad" (the validator rejects
it) and mode Filter, changing the mode to Search runs the auto-submit effect
(source lines 80-85), which checks only `isSearch && input.length > 0` and
never `isValid` — so `onSubmit` IS invoked while the pattern is invalid,
refuting the claim that no event can cause `onSubmit` then. -/
theorem c1_counterexample_mode_change_submits_invalid :
    c1Cfg.validator c1State.input = false ∧
    (step c1Cfg (Event.changeSelect 5 SearchBarActions.Search) c1State).snd =
      [Output.breadcrumbSelect 5 SearchBarActions.Search,
       Output.breadcrumbSubmit 5 SearchBarActions.Search "bad",
       Output.onSubmit 5 SearchBarActions.Search "bad"] := by
  exact ⟨by decide, by decide⟩

/-- C1 (amended): while `validator(input)` is false, the Enter keypress and
the submit-button click paths never invoke `onSubmit` — the Enter handler
requires `isValid` (source lines 165-167) and the submit button only exists
while `isValid` (source lines 144-163) — though a mode change into Search
with a non-empty pattern still auto-submits regardless of validity. -/
theorem c1_invalid_blocks_enter_and_click (cfg : Config) (s : SearchBarState)
    (t : Nat) (h : cfg.validator s.input = false) :
    (step cfg (Event.pressEnter t) s).snd.filter isOnSubmit = [] ∧
    (step cfg (Event.clickSubmit t) s).snd.filter isOnSubmit = [] := by
  have hin : (fireDue t s).fst.input = s.input := fireDue_fst_input t s
  constructor
  · show ((fireDue t s).snd ++
        (handleEvent cfg (Event.pressEnter t) (fireDue t s).fst).snd).filter
        isOnSubmit = []
    rw [List.filter_append, fireDue_filter_onSubmit]
    have : (handleEvent cfg (Event.pressEnter t) (fireDue t s).fst).snd = [] := by
      simp [handleEvent, hin, h]
    rw [this]
    rfl
  · show ((fireDue t s).snd ++
        (handleEvent cfg (Event.clickSubmit t) (fireDue t s).fst).snd).filter
        isOnSubmit = []
    rw [List.filter_append, fireDue_filter_onSubmit]
    have : (handleEvent cfg (Event.clickSubmit t) (fireDue t s).fst).snd = [] := by
      simp [handleEvent, hin, h]
    rw [this]
    rfl

/-- C1 witness: the amended theorem at the concrete invalid state. -/
theorem c1_invalid_blocks_enter_and_click_witness :
    (step c1Cfg (Event.pressEnter 3) c1State).snd.filter isOnSubmit = [] ∧
    (step c1Cfg (Event.clickSubmit 3) c1State).snd.filter isOnSubmit = [] :=
  c1_invalid_blocks_enter_and_click c1Cfg c1State 3 (by decide)

/-- C2's fixed configuration: a validator accepting everything, bar
enabled. -/
def c2Cfg : Config := { validator := fun _ => true, disabled := false }

/-- C2 counterexample: type "ab" at t=0 in Search mode (scheduling its
debounced `onChange` for t=1000), switch the mode to Filter at t=500,
let time pass to t=2000.  The `useMemo` recreation on the `selected`
change produces a fresh debounced function but does NOT clear the old
function's pending timeout, so the forwarded call carries Search — the mode
captured when the edit was made — while the component's mode at firing time
is Filter, refuting the claim that the forwarded call always carries the
mode current at firing time. -/
theorem c2_counterexample_stale_mode_fires :
    (run c2Cfg [Event.changePattern 0 "ab",
        Event.changeSelect 500 SearchBarActions.Filter] 2000).snd =
      [Output.breadcrumbSelect 500 SearchBarActions.Filter,
       Output.onChange 1000 SearchBarActions.Search "ab"] ∧
    (run c2Cfg [Event.changePattern 0 "ab",
        Event.changeSelect 500 SearchBarActions.Filter] 2000).fst.selected =
      SearchBarActions.Filter := by
  exact ⟨by decide, by decide⟩

/-- C2 (amended): a mode change while a debounced `onChange` is pending does
not cancel the pending call; it fires at its deadline with the mode its
closure captured when the edit was scheduled (only edits made after the
mode change go through the rebuilt closure and use the new mode). -/
theorem c2_pending_debounce_keeps_captured_mode (time endTime : Nat)
    (m : SearchBarActions) (s : SearchBarState) (tm : DebounceTimer)
    (hc : s.currentTimer = some tm) (hm : m ≠ s.selected)
    (hend : tm.deadline ≤ endTime) :
    (applySetSelected time m s).fst.selected = m ∧
    Output.onChange tm.deadline tm.capturedSelected tm.lastValue ∈
      (fireDue endTime (applySetSelected time m s).fst).snd := by
  refine ⟨applySetSelected_fst_selected time m s, ?_⟩
  obtain ⟨hcur, hstale⟩ := applySetSelected_fst_timers time m s hm
  rw [fireDue_snd_of_none endTime _ hcur, hstale, hc]
  have htm : tm ∈ (s.staleTimers ++ (some tm).toList).filter
      (fun tm2 => decide (tm2.deadline ≤ endTime)) := by
    apply List.mem_filter.mpr
    refine ⟨List.mem_append_right _ ?_, by simpa using hend⟩
    simp [Option.toList]
  exact List.mem_map_of_mem fireTimer htm

/-- C2's fixed state for the witness: pattern "ab" in Search mode with its
debounced call pending for t=1000. -/
def c2State : SearchBarState :=
  { input := "ab", selected := SearchBarActions.Search,
    currentTimer := some { deadline := 1000,
                           capturedSelected := SearchBarActions.Search,
                           lastValue := "ab" },
    staleTimers := [] }

/-- C2 witness: the amended theorem at the concrete pending state. -/
theorem c2_pending_debounce_keeps_captured_mode_witness :
    (applySetSelected 500 SearchBarActions.Filter c2State).fst.selected =
      SearchBarActions.Filter ∧
    Output.onChange 1000 SearchBarActions.Search "ab" ∈
      (fireDue 2000 (applySetSelected 500 SearchBarActions.Filter c2State).fst).snd :=
  c2_pending_debounce_keeps_captured_mode 500 2000 SearchBarActions.Filter c2State
    { deadline := 1000, capturedSelected := SearchBarActions.Search, lastValue := "ab" }
    rfl (by decide) (by decide)

/-- C4: from any state whose mode is not Search, changing the mode to Search
emits exactly one `onSubmit` when the pattern is non-empty and none when it
is empty; and re-selecting Search while the mode already is Search (or any
re-render without an `isSearch` change) emits none — the effect of source
lines 80-85 runs once per transition of `isSearch`. -/
theorem c4_auto_submit_on_search_transition (cfg : Config) (s : SearchBarState)
    (t : Nat) (h : s.selected ≠ SearchBarActions.Search) :
    ((step cfg (Event.changeSelect t SearchBarActions.Search) s).snd.filter isOnSubmit =
      if 0 < s.input.length then [Output.onSubmit t SearchBarActions.Search s.input]
      else []) ∧
    (∀ s2 : SearchBarState, s2.selected = SearchBarActions.Search →
      (step cfg (Event.changeSelect t SearchBarActions.Search) s2).snd.filter
        isOnSubmit = []) := by
  constructor
  · show ((fireDue t s).snd ++
        (Output.breadcrumbSelect t SearchBarActions.Search ::
          (applySetSelected t SearchBarActions.Search (fireDue t s).fst).snd)).filter
        isOnSubmit = _
    rw [List.filter_append, fireDue_filter_onSubmit]
    rw [show (Output.breadcrumbSelect t SearchBarActions.Search ::
          (applySetSelected t SearchBarActions.Search (fireDue t s).fst).snd).filter
          isOnSubmit =
        ((applySetSelected t SearchBarActions.Search (fireDue t s).fst).snd).filter
          isOnSubmit from rfl]
    rw [applySetSelected_snd, fireDue_fst_selected, fireDue_fst_input]
    rw [if_neg (fun hh => h hh.symm)]
    by_cases hlen : 0 < s.input.length
    · rw [if_pos hlen,
        if_pos (show SearchBarActions.Search = SearchBarActions.Search ∧
          0 < s.input.length from ⟨rfl, hlen⟩)]
      rfl
    · rw [if_neg hlen,
        if_neg (show ¬ (SearchBarActions.Search = SearchBarActions.Search ∧
          0 < s.input.length) from fun hh => hlen hh.2)]
      rfl
  · intro s2 h2
    show ((fireDue t s2).snd ++
        (Output.breadcrumbSelect t SearchBarActions.Search ::
          (applySetSelected t SearchBarActions.Search (fireDue t s2).fst).snd)).filter
        isOnSubmit = []
    rw [List.filter_append, fireDue_filter_onSubmit]
    rw [show (Output.breadcrumbSelect t SearchBarActions.Search ::
          (applySetSelected t SearchBarActions.Search (fireDue t s2).fst).snd).filter
          isOnSubmit =
        ((applySetSelected t SearchBarActions.Search (fireDue t s2).fst).snd).filter
          isOnSubmit from rfl]
    rw [applySetSelected_snd, fireDue_fst_selected, h2, if_pos rfl]
    rfl

/-- C4's fixed configuration for the witness. -/
def c4Cfg : Config := { validator := fun _ => true, disabled := false }

/-- C4's fixed state for the witness: non-empty pattern "abc" in Filter
mode. -/
def c4State : SearchBarState :=
  { input := "abc", selected := SearchBarActions.Filter,
    currentTimer := none, staleTimers := [] }

/-- The inductive core of C3: from a state whose only pending timer was
scheduled at `t0` (deadline `t0 + 1000`) with the current mode captured and
`w` stored, a chain of further valid `changePattern` calls each arriving
within the window resets that timer each time, so exactly one `onChange`
comes out, at 1000ms after the last call, with the last value. -/
theorem c3_aux (cfg : Config) (calls : List (Nat × String)) :
    ∀ (s : SearchBarState) (t0 : Nat) (w : String) (endTime : Nat),
    (∀ p ∈ calls, cfg.validator p.2 = true) →
    rapidFrom t0 calls = true →
    s.currentTimer = some { deadline := t0 + 1000,
                            capturedSelected := s.selected, lastValue := w } →
    s.staleTimers = [] →
    lastTime t0 calls + 1000 ≤ endTime →
    (runFrom cfg s (changeEvents calls) endTime).snd =
      [Output.onChange (lastTime t0 calls + 1000) s.selected (lastValue w calls)] := by
  induction calls with
  | nil =>
      intro s t0 w endTime hvalid hrapid hcur hstale hend
      obtain ⟨si, ssel, cur, stale⟩ := s
      simp only at hcur hstale
      subst hcur hstale
      simp only [lastTime] at hend
      show (fireDue endTime _).snd = _
      simp [fireDue, hend, fireTimer, lastTime, lastValue]
  | cons head rest ih =>
      obtain ⟨t1, v1⟩ := head
      intro s t0 w endTime hvalid hrapid hcur hstale hend
      obtain ⟨si, ssel, cur, stale⟩ := s
      simp only at hcur hstale
      subst hcur hstale
      simp only [rapidFrom, Bool.and_eq_true, decide_eq_true_eq] at hrapid
      obtain ⟨⟨hle, hlt⟩, hrest⟩ := hrapid
      have hv1 : cfg.validator v1 = true := hvalid (t1, v1) (List.mem_cons_self _ _)
      have hnd : ¬ (t0 + 1000 ≤ t1) := by omega
      have hstep : step cfg (Event.changePattern t1 v1)
          ({ input := si, selected := ssel,
             currentTimer := some { deadline := t0 + 1000,
                                    capturedSelected := ssel, lastValue := w },
             staleTimers := [] } : SearchBarState) =
          (({ input := v1, selected := ssel,
              currentTimer := some { deadline := t1 + 1000,
                                     capturedSelected := ssel, lastValue := v1 },
              staleTimers := [] } : SearchBarState), ([] : List Output)) := by
        simp [step, handleEvent, Event.time, fireDue, hnd, handleOnChange, hv1]
      show (runFrom cfg _ (Event.changePattern t1 v1 :: changeEvents rest) endTime).snd = _
      rw [show runFrom cfg
          ({ input := si, selected := ssel,
             currentTimer := some { deadline := t0 + 1000,
                                    capturedSelected := ssel, lastValue := w },
             staleTimers := [] } : SearchBarState)
          (Event.changePattern t1 v1 :: changeEvents rest) endTime =
        ((runFrom cfg (step cfg (Event.changePattern t1 v1)
            ({ input := si, selected := ssel,
               currentTimer := some { deadline := t0 + 1000,
                                      capturedSelected := ssel, lastValue := w },
               staleTimers := [] } : SearchBarState)).fst
            (changeEvents rest) endTime).fst,
         (step cfg (Event.changePattern t1 v1)
            ({ input := si, selected := ssel,
               currentTimer := some { deadline := t0 + 1000,
                                      capturedSelected := ssel, lastValue := w },
               staleTimers := [] } : SearchBarState)).snd ++
         (runFrom cfg (step cfg (Event.changePattern t1 v1)
            ({ input := si, selected := ssel,
               currentTimer := some { deadline := t0 + 1000,
                                      capturedSelected := ssel, lastValue := w },
               staleTimers := [] } : SearchBarState)).fst
            (changeEvents rest) endTime).snd) from rfl]
      rw [hstep]
      simp only [List.nil_append, lastTime, lastValue]
      exact ih _ t1 v1 endTime
        (fun p hp => hvalid p (List.mem_cons_of_mem _ hp)) hrest rfl rfl
        (by simpa [lastTime] using hend)

/-- C3: starting with no pending debounced call, a sequence of
`changePattern` calls with valid values — the first at `t0` with `v0`, each
subsequent call within 1000ms of its predecessor — results in exactly one
forwarded `onChange`, carrying the last value of the sequence, at 1000ms
after the last call (source lines 88-98: a trailing debounce of 1000ms whose
pending call is reset by each scheduling). -/
theorem c3_debounce_coalesces_to_last_value (cfg : Config) (s : SearchBarState)
    (t0 : Nat) (v0 : String) (calls : List (Nat × String)) (endTime : Nat)
    (hv0 : cfg.validator v0 = true)
    (hvalid : ∀ p ∈ calls, cfg.validator p.2 = true)
    (hrapid : rapidFrom t0 calls = true)
    (hcur : s.currentTimer = none) (hstale : s.staleTimers = [])
    (hend : lastTime t0 calls + 1000 ≤ endTime) :
    (runFrom cfg s (Event.changePattern t0 v0 :: changeEvents calls) endTime).snd =
      [Output.onChange (lastTime t0 calls + 1000) s.selected (lastValue v0 calls)] := by
  obtain ⟨si, ssel, cur, stale⟩ := s
  simp only at hcur hstale
  subst hcur hstale
  have hstep : step cfg (Event.changePattern t0 v0)
      ({ input := si, selected := ssel, currentTimer := none,
         staleTimers := [] } : SearchBarState) =
      (({ input := v0, selected := ssel,
          currentTimer := some { deadline := t0 + 1000,
                                 capturedSelected := ssel, lastValue := v0 },
          staleTimers := [] } : SearchBarState), ([] : List Output)) := by
    simp [step, handleEvent, Event.time, fireDue, handleOnChange, hv0]
  show (runFrom cfg _ (Event.changePattern t0 v0 :: changeEvents calls) endTime).snd = _
  rw [show runFrom cfg
      ({ input := si, selected := ssel, currentTimer := none,
         staleTimers := [] } : SearchBarState)
      (Event.changePattern t0 v0 :: changeEvents calls) endTime =
    ((runFrom cfg (step cfg (Event.changePattern t0 v0)
        ({ input := si, selected := ssel, currentTimer := none,
           staleTimers := [] } : SearchBarState)).fst
        (changeEvents calls) endTime).fst,
     (step cfg (Event.changePattern t0 v0)
        ({ input := si, selected := ssel, currentTimer := none,
           staleTimers := [] } : SearchBarState)).snd ++
     (runFrom cfg (step cfg (Event.changePattern t0 v0)
        ({ input := si, selected := ssel, currentTimer := none,
           staleTimers := [] } : SearchBarState)).fst
        (changeEvents calls) endTime).snd) from rfl]
  rw [hstep]
  simp only [List.nil_append]
  exact c3_aux cfg calls _ t0 v0 endTime hvalid hrapid rfl rfl hend

/-- C3's fixed configuration for the witness: a validator accepting
everything. -/
def c3Cfg : Config := { validator := fun _ => true, disabled := false }

/-- C3 witness: typing "a" at t=0 and "ab" at t=500 yields exactly one
`onChange` at t=1500 with "ab". -/
theorem c3_debounce_coalesces_to_last_value_witness :
    (runFrom c3Cfg initialState
        (Event.changePattern 0 "a" :: changeEvents [(500, "ab")]) 2000).snd =
      [Output.onChange 1500 SearchBarActions.Search "ab"] :=
  c3_debounce_coalesces_to_last_value c3Cfg initialState 0 "a" [(500, "ab")] 2000
    rfl (fun p _ => rfl) (by decide) rfl rfl (by decide)

/-- C4 witness: the theorem at the concrete Filter-mode state. -/
theorem c4_auto_submit_on_search_transition_witness :
    ((step c4Cfg (Event.changeSelect 7 SearchBarActions.Search) c4State).snd.filter
        isOnSubmit =
      if 0 < c4State.input.length then
        [Output.onSubmit 7 SearchBarActions.Search c4State.input]
      else []) ∧
    (∀ s2 : SearchBarState, s2.selected = SearchBarActions.Search →
      (step c4Cfg (Event.changeSelect 7 SearchBarActions.Search) s2).snd.filter
        isOnSubmit = []) :=
  c4_auto_submit_on_search_transition c4Cfg c4State 7 (by decide)

end Parsley
